import Mathlib

/-!
Shallow embedding of `src/statespace.py`: the `StateSpace` base class and its
concrete realization `EnumStateSpace` (a cyclic finite-enumeration domain),
together with the module-level demonstration script (`bar`).

Modelling conventions:
 - Python values that may be a `str`, `int` or `float` are modelled by `PyVal`
   with `str` and `int` constructors; `float` selectors follow the identical
   `str(...)` code path in the source, but Python float formatting is
   floating-point behaviour and is not modelled.
 - A Python `dict` with string keys and enum-member values is an
   insertion-ordered association list `List (String × Nat)`, an enum member of
   `Enum('scalar_states', enum_states, start=0)` being identified with its
   integer value (an index into `enum_states`, which is also the list index of
   the member's name).
 - Raised exceptions are values of `PyErr`; an operation that can raise is
   state-passing, returning the (unchanged, should it raise before assigning)
   state together with an optional exception.
 - `Enum(...)` creation itself assumes, as the spec requires, distinct valid
   label strings; the only creation-time failure modelled is the empty
   enumeration, for which `self.enum_states(0)` raises `ValueError`.
-/

namespace StateSpacePy

/-- A Python value that the source accepts as a basis-element name or as an
`update` selector: a string or an integer (floats follow the same stringify
path but are not modelled). -/
inductive PyVal where
  | str : String → PyVal
  | int : Int → PyVal
deriving DecidableEq

/-- Python `str(x)` for the modelled values: identity on strings, decimal
representation (with leading minus sign when negative) on integers. -/
def pyStr : PyVal → String
  | .str s => s
  | .int n => toString n

/-- The Python exceptions the modelled code can raise. -/
inductive PyErr where
  | keyError
  | valueError
  | zeroDivisionError
deriving DecidableEq

/-- Python dict lookup `d[k]` on a string-keyed dict: the value at the unique
entry carrying `k`, or `none` (meaning `KeyError`) when no entry does. -/
def dictLookup : List (String × Nat) → String → Option Nat
  | [], _ => none
  | p :: rest, k => if p.1 = k then some p.2 else dictLookup rest k

/-- Python dict assignment `d[k] = v`: replace the value in place (keeping the
entry's position) when the key is present, append a new entry otherwise. -/
def dictAssign : List (String × Nat) → String → Nat → List (String × Nat)
  | [], k, v => [(k, v)]
  | p :: rest, k, v => if p.1 = k then (k, v) :: rest else p :: dictAssign rest k v

/-- The dict comprehension `{key: v for key in keys}`: start from the empty
dict and assign each key in order. -/
def mkDict (keys : List String) (v : Nat) : List (String × Nat) :=
  keys.foldl (fun d k => dictAssign d k v) []

/-- The state of an `EnumStateSpace` object:
`basis_elements` (the stringified tuple fixed by `StateSpace.__init__`),
`enum_labels` (the member names of `Enum('scalar_states', enum_states,
start=0)`, the member with name `enum_labels[i]` having value `i`), and
`scalars` (the dict mapping each basis-element name to the value of its
current enum member). -/
structure EnumStateSpace where
  basis_elements : List String
  enum_labels : List String
  scalars : List (String × Nat)
deriving DecidableEq

/-- `EnumStateSpace.__init__(basis_elements, enum_states)`:
`StateSpace.__init__` stringifies the basis elements, stores them as a tuple
and builds the scalar dict (first with value `0`; the subclass immediately
rebuilds it with the origin enum member, whose value is also `0`).
`Enum('scalar_states', enum_states, start=0)` gives the domain; the lookup
`self.enum_states(0)` of the origin state raises `ValueError` when the
enumeration has no members, so construction of the instance fails and nothing
is returned. -/
def EnumStateSpace.construct (basis_elements : List PyVal) (enum_states : List String) :
    Except PyErr EnumStateSpace :=
  let stringified_elements := basis_elements.map pyStr
  if enum_states.isEmpty then
    .error .valueError
  else
    .ok { basis_elements := stringified_elements
          enum_labels := enum_states
          scalars := mkDict stringified_elements 0 }

/-- `EnumStateSpace.check`: every scalar must be a member of the enumeration.
A stored member of `Enum('scalar_states', enum_states, start=0)` is a member
exactly when its value is one of the member values `0 .. N-1`, `N` being the
number of labels. Reads the state only, returns a boolean, raises nothing. -/
def EnumStateSpace.check (s : EnumStateSpace) : Bool :=
  s.scalars.all fun p => decide (p.2 < s.enum_labels.length)

/-- `EnumStateSpace.update(basis_element)`: stringify the selector, look up its
current scalar (raising `KeyError` when the selector is not a key), take the
member's integer value, add one modulo `len(self.enum_states)` (a modulus of
zero would raise `ZeroDivisionError`; unreachable from `construct`), and
assign the member with the new value back into the dict. The member lookup
`self.enum_states(new_value)` never raises here since `new_value < N`.
Returns the new state together with the exception raised, if any; when an
exception is raised it happens before the assignment, so the state comes back
unchanged. -/
def EnumStateSpace.update (s : EnumStateSpace) (basis_element : PyVal) :
    EnumStateSpace × Option PyErr :=
  let total_states := s.enum_labels.length
  let basis_elem := pyStr basis_element
  match dictLookup s.scalars basis_elem with
  | none => (s, some PyErr.keyError)
  | some scalar_state =>
    let int_value := scalar_state
    if total_states = 0 then
      (s, some PyErr.zeroDivisionError)
    else
      let new_value := (int_value + 1) % total_states
      ({ s with scalars := dictAssign s.scalars basis_elem new_value }, none)

/-- `EnumStateSpace.resolve(*args, **kwargs)`: `return None`. Touches no
state; the sentinel result is `none`. -/
def EnumStateSpace.resolve (s : EnumStateSpace) : EnumStateSpace × Option Unit :=
  (s, none)

/-- `EnumStateSpace.__str__`: each basis element, in stored order, rendered as
`name-of-current-member ++ "<" ++ basis-element ++ ">"`, joined by `" + "`.
On every constructed instance each basis element is a key of `scalars` and
each scalar value indexes `enum_labels`, so the two `getD` defaults are never
taken there. -/
def EnumStateSpace.display (s : EnumStateSpace) : String :=
  String.intercalate " + "
    (s.basis_elements.map fun key =>
      let scalar := s.enum_labels.getD ((dictLookup s.scalars key).getD 0) ""
      scalar ++ "<" ++ key ++ ">")

/-- Run a sequence of `update` calls, each on the state the previous one
produced (an `update` that raises leaves the state unchanged). -/
def applyUpdates (s : EnumStateSpace) (xs : List PyVal) : EnumStateSpace :=
  xs.foldl (fun t x => (t.update x).1) s

/-- Whether every `update` in the sequence succeeds (raises nothing). -/
def updatesSucceed : EnumStateSpace → List PyVal → Bool
  | _, [] => true
  | s, x :: xs => (s.update x).2.isNone && updatesSucceed (s.update x).1 xs

/-- `n` successive `update` calls on the same selector. -/
def updateTimes (s : EnumStateSpace) (x : PyVal) : Nat → EnumStateSpace
  | 0 => s
  | n + 1 => updateTimes (s.update x).1 x n

/-! ### Dictionary lemmas -/

theorem dictLookup_assign_self (d : List (String × Nat)) (k : String) (v : Nat) :
    dictLookup (dictAssign d k v) k = some v := by
  induction d with
  | nil => simp [dictAssign, dictLookup]
  | cons p rest ih =>
    by_cases h : p.1 = k
    · simp [dictAssign, h, dictLookup]
    · simp [dictAssign, h, dictLookup, ih]

theorem dictLookup_assign_ne (d : List (String × Nat)) (k : String) (v : Nat)
    (k' : String) (h : k' ≠ k) :
    dictLookup (dictAssign d k v) k' = dictLookup d k' := by
  induction d with
  | nil => simp [dictAssign, dictLookup, Ne.symm h]
  | cons p rest ih =>
    by_cases hp : p.1 = k
    · have hpk : p.1 ≠ k' := by rw [hp]; exact Ne.symm h
      simp [dictAssign, hp, dictLookup, Ne.symm h, hpk]
    · rw [dictAssign, if_neg hp]
      by_cases hpk : p.1 = k'
      · simp [dictLookup, hpk]
      · simp [dictLookup, hpk, ih]

theorem dictAssign_forall {P : Nat → Prop} (d : List (String × Nat)) (k : String) (v : Nat)
    (hd : ∀ p ∈ d, P p.2) (hv : P v) :
    ∀ p ∈ dictAssign d k v, P p.2 := by
  induction d with
  | nil => simpa [dictAssign] using hv
  | cons q rest ih =>
    by_cases h : q.1 = k
    · intro p hp
      rw [dictAssign] at hp
      simp only [h, if_pos rfl] at hp
      rcases List.mem_cons.mp hp with h1 | h1
      · simpa [h1] using hv
      · exact hd p (List.mem_cons_of_mem q h1)
    · intro p hp
      rw [dictAssign] at hp
      simp only [h, if_false] at hp
      rcases List.mem_cons.mp hp with h1 | h1
      · exact h1 ▸ hd q (List.mem_cons_self q rest)
      · exact ih (fun p hp => hd p (List.mem_cons_of_mem q hp)) p h1

theorem dictLookup_isSome_iff (d : List (String × Nat)) (k : String) :
    (dictLookup d k).isSome = true ↔ k ∈ d.map Prod.fst := by
  induction d with
  | nil => simp [dictLookup]
  | cons p rest ih =>
    by_cases h : p.1 = k
    · simp [dictLookup, h]
    · simp [dictLookup, h, ih, Ne.symm h]

theorem dictAssign_keys (d : List (String × Nat)) (k : String) (v i : Nat)
    (h : dictLookup d k = some i) :
    (dictAssign d k v).map Prod.fst = d.map Prod.fst := by
  induction d with
  | nil => simp [dictLookup] at h
  | cons p rest ih =>
    by_cases hp : p.1 = k
    · simp [dictAssign, hp]
    · rw [dictLookup, if_neg hp] at h
      simp [dictAssign, hp, ih h]

theorem mkDict_forall_aux {P : Nat → Prop} (keys : List String) (v : Nat) (hv : P v) :
    ∀ d : List (String × Nat), (∀ p ∈ d, P p.2) →
      ∀ p ∈ keys.foldl (fun d k => dictAssign d k v) d, P p.2 := by
  induction keys with
  | nil => intro d hd; simpa using hd
  | cons a keys ih =>
    intro d hd
    simp only [List.foldl_cons]
    exact ih (dictAssign d a v) (dictAssign_forall d a v hd hv)

theorem mkDict_forall {P : Nat → Prop} (keys : List String) (v : Nat) (hv : P v) :
    ∀ p ∈ mkDict keys v, P p.2 :=
  mkDict_forall_aux keys v hv [] (by simp)

theorem dictLookup_assign_isSome (d : List (String × Nat)) (a : String) (v : Nat)
    (k : String) :
    (dictLookup (dictAssign d a v) k).isSome = true ↔
      k = a ∨ (dictLookup d k).isSome = true := by
  by_cases h : k = a
  · subst h; simp [dictLookup_assign_self]
  · simp [dictLookup_assign_ne d a v k h, h]

theorem mkDict_lookup_isSome_aux (keys : List String) (v : Nat) :
    ∀ (d : List (String × Nat)) (k : String),
      (dictLookup (keys.foldl (fun d k => dictAssign d k v) d) k).isSome = true ↔
        k ∈ keys ∨ (dictLookup d k).isSome = true := by
  induction keys with
  | nil => intro d k; simp
  | cons a keys ih =>
    intro d k
    simp only [List.foldl_cons]
    rw [ih (dictAssign d a v) k, dictLookup_assign_isSome]
    constructor
    · rintro (h | h | h)
      · exact Or.inl (List.mem_cons_of_mem a h)
      · exact Or.inl (h ▸ List.mem_cons_self a keys)
      · exact Or.inr h
    · rintro (h | h)
      · rcases List.mem_cons.mp h with h | h
        · exact Or.inr (Or.inl h)
        · exact Or.inl h
      · exact Or.inr (Or.inr h)

theorem mkDict_lookup_isSome (keys : List String) (v : Nat) (k : String) :
    (dictLookup (mkDict keys v) k).isSome = true ↔ k ∈ keys := by
  rw [mkDict, mkDict_lookup_isSome_aux]
  simp [dictLookup]

/-! ### Update equations and invariant preservation -/

theorem update_found (s : EnumStateSpace) (x : PyVal) (i : Nat)
    (hN : 0 < s.enum_labels.length) (h : dictLookup s.scalars (pyStr x) = some i) :
    s.update x =
      ({ s with scalars :=
          dictAssign s.scalars (pyStr x) ((i + 1) % s.enum_labels.length) }, none) := by
  simp [EnumStateSpace.update, h, Nat.pos_iff_ne_zero.mp hN]

theorem update_unknown_eq (s : EnumStateSpace) (x : PyVal)
    (h : dictLookup s.scalars (pyStr x) = none) :
    s.update x = (s, some PyErr.keyError) := by
  simp [EnumStateSpace.update, h]

theorem update_fst_basis_elements (s : EnumStateSpace) (x : PyVal) :
    ((s.update x).1).basis_elements = s.basis_elements := by
  rw [EnumStateSpace.update]
  cases dictLookup s.scalars (pyStr x) with
  | none => rfl
  | some i => dsimp only; split <;> rfl

theorem update_fst_enum_labels (s : EnumStateSpace) (x : PyVal) :
    ((s.update x).1).enum_labels = s.enum_labels := by
  rw [EnumStateSpace.update]
  cases dictLookup s.scalars (pyStr x) with
  | none => rfl
  | some i => dsimp only; split <;> rfl

theorem update_fst_keys (s : EnumStateSpace) (x : PyVal) :
    ((s.update x).1).scalars.map Prod.fst = s.scalars.map Prod.fst := by
  rw [EnumStateSpace.update]
  cases h : dictLookup s.scalars (pyStr x) with
  | none => simp
  | some i =>
    simp only []
    split
    · simp
    · simpa using dictAssign_keys s.scalars (pyStr x) _ i h

theorem update_fst_scalars_forall_lt (s : EnumStateSpace) (x : PyVal)
    (h : ∀ p ∈ s.scalars, p.2 < s.enum_labels.length) :
    ∀ p ∈ ((s.update x).1).scalars, p.2 < s.enum_labels.length := by
  rw [EnumStateSpace.update]
  cases hl : dictLookup s.scalars (pyStr x) with
  | none => simpa using h
  | some i =>
    simp only []
    split
    · simpa using h
    · rename_i hz
      have hN : 0 < s.enum_labels.length := Nat.pos_of_ne_zero hz
      exact @dictAssign_forall (fun v => v < s.enum_labels.length) s.scalars (pyStr x) _ h
        (Nat.mod_lt _ hN)

theorem check_eq_true_iff (s : EnumStateSpace) :
    s.check = true ↔ ∀ p ∈ s.scalars, p.2 < s.enum_labels.length := by
  simp [EnumStateSpace.check]

theorem construct_ok_iff (bs : List PyVal) (ls : List String) (s : EnumStateSpace) :
    EnumStateSpace.construct bs ls = .ok s ↔
      ls ≠ [] ∧ s = { basis_elements := bs.map pyStr
                      enum_labels := ls
                      scalars := mkDict (bs.map pyStr) 0 } := by
  rw [EnumStateSpace.construct]
  by_cases h : ls.isEmpty
  · simp [h, List.isEmpty_iff.mp h]
  · simp only [h, if_false]
    constructor
    · intro he
      exact ⟨fun he' => h (List.isEmpty_iff.mpr he'), (Except.ok.injEq _ _).mp he |>.symm⟩
    · rintro ⟨-, rfl⟩; rfl

theorem applyUpdates_enum_labels (xs : List PyVal) :
    ∀ s : EnumStateSpace, (applyUpdates s xs).enum_labels = s.enum_labels := by
  induction xs with
  | nil => intro s; rfl
  | cons x xs ih =>
    intro s
    simp only [applyUpdates, List.foldl_cons]
    simp only [applyUpdates] at ih
    rw [ih, update_fst_enum_labels]

theorem applyUpdates_basis_elements (xs : List PyVal) :
    ∀ s : EnumStateSpace, (applyUpdates s xs).basis_elements = s.basis_elements := by
  induction xs with
  | nil => intro s; rfl
  | cons x xs ih =>
    intro s
    simp only [applyUpdates, List.foldl_cons]
    simp only [applyUpdates] at ih
    rw [ih, update_fst_basis_elements]

theorem applyUpdates_keys (xs : List PyVal) :
    ∀ s : EnumStateSpace,
      (applyUpdates s xs).scalars.map Prod.fst = s.scalars.map Prod.fst := by
  induction xs with
  | nil => intro s; rfl
  | cons x xs ih =>
    intro s
    simp only [applyUpdates, List.foldl_cons]
    simp only [applyUpdates] at ih
    rw [ih, update_fst_keys]

theorem applyUpdates_forall_lt (xs : List PyVal) :
    ∀ s : EnumStateSpace, (∀ p ∈ s.scalars, p.2 < s.enum_labels.length) →
      ∀ p ∈ (applyUpdates s xs).scalars, p.2 < (applyUpdates s xs).enum_labels.length := by
  induction xs with
  | nil => intro s h; simpa [applyUpdates] using h
  | cons x xs ih =>
    intro s h
    simp only [applyUpdates, List.foldl_cons]
    simp only [applyUpdates] at ih
    refine ih _ ?_
    rw [update_fst_enum_labels]
    exact update_fst_scalars_forall_lt s x h


theorem updateTimes_enum_labels (x : PyVal) (n : Nat) :
    ∀ s : EnumStateSpace, (updateTimes s x n).enum_labels = s.enum_labels := by
  induction n with
  | zero => intro s; rfl
  | succ n ih =>
    intro s
    rw [updateTimes, ih, update_fst_enum_labels]

theorem updateTimes_lookup (x : PyVal) (n : Nat) :
    ∀ (s : EnumStateSpace) (i : Nat), 0 < s.enum_labels.length →
      dictLookup s.scalars (pyStr x) = some i → i < s.enum_labels.length →
      dictLookup (updateTimes s x n).scalars (pyStr x) =
        some ((i + n) % s.enum_labels.length) := by
  induction n with
  | zero =>
    intro s i hN h hi
    simpa [updateTimes, Nat.mod_eq_of_lt hi] using h
  | succ n ih =>
    intro s i hN h hi
    rw [updateTimes]
    have hlab : ((s.update x).1).enum_labels = s.enum_labels := update_fst_enum_labels s x
    have hscal : ((s.update x).1).scalars =
        dictAssign s.scalars (pyStr x) ((i + 1) % s.enum_labels.length) := by
      rw [update_found s x i hN h]
    have hlook : dictLookup ((s.update x).1).scalars (pyStr x) =
        some ((i + 1) % s.enum_labels.length) := by
      rw [hscal]; exact dictLookup_assign_self _ _ _
    have hres := ih (s.update x).1 ((i + 1) % s.enum_labels.length)
      (by rw [hlab]; exact hN) hlook (by rw [hlab]; exact Nat.mod_lt _ hN)
    rw [hlab] at hres
    rw [hres]
    congr 1
    rw [Nat.mod_add_mod]
    congr 1
    omega

/-! ### Further operation lemmas -/

theorem update_congr_pyStr (s : EnumStateSpace) (x y : PyVal) (h : pyStr x = pyStr y) :
    s.update x = s.update y := by
  simp only [EnumStateSpace.update]
  rw [h]

theorem update_snd_none_iff (s : EnumStateSpace) (x : PyVal)
    (hN : 0 < s.enum_labels.length) :
    (s.update x).2 = none ↔ (dictLookup s.scalars (pyStr x)).isSome = true := by
  rw [EnumStateSpace.update]
  cases hl : dictLookup s.scalars (pyStr x) with
  | none => simp
  | some i => simp [Nat.pos_iff_ne_zero.mp hN]

/-! ### Concrete states used by the witnesses and the demonstration script -/

/-- A concrete instance state used by witnesses: two basis elements over a
three-label enumeration, scalars at indices 0 and 2. -/
def wS : EnumStateSpace :=
  { basis_elements := ["a", "b"]
    enum_labels := ["L0", "L1", "L2"]
    scalars := [("a", 0), ("b", 2)] }

/-- The state `EnumStateSpace.construct [PyVal.str "a"] ["L0"]` produces. -/
def wC : EnumStateSpace :=
  { basis_elements := ["a"]
    enum_labels := ["L0"]
    scalars := [("a", 0)] }

/-- The state `EnumStateSpace.construct [PyVal.int 3] ["L0", "L1"]` produces:
the integer basis element is stored stringified. -/
def wD : EnumStateSpace :=
  { basis_elements := ["3"]
    enum_labels := ["L0", "L1"]
    scalars := [("3", 0)] }

/-- The construction of the demonstration instance `bar` in the script. -/
def barE : Except PyErr EnumStateSpace :=
  EnumStateSpace.construct [PyVal.str "e1", PyVal.str "e2", PyVal.str "e3"]
    ["state0", "state1", "state2"]

/-- The successfully constructed `bar`; the scenario theorem shows the error
branch is not taken. -/
def barInit : EnumStateSpace :=
  match barE with
  | .ok s => s
  | .error _ => { basis_elements := [], enum_labels := [], scalars := [] }

/-- The script's update sequence: `e1` three times, `e2` once, `e3` twice. -/
def barScript : List PyVal :=
  [PyVal.str "e1", PyVal.str "e1", PyVal.str "e1",
   PyVal.str "e2", PyVal.str "e3", PyVal.str "e3"]

/-- The state of `bar` after the script's updates. -/
def barFinal : EnumStateSpace := applyUpdates barInit barScript

/-! ### The claims -/

/-- C1: on any instance whose enumeration has `N` labels (every constructed
instance has `N ≥ 1`) and any basis element currently at index `i`, `update`
on that basis element sets its scalar to `(i + 1) % N` and raises nothing.
`update` is the sole mutation path: `check` and `display` are pure functions
of the state (returning only a boolean resp. a string), and `resolve` returns
the state unchanged, as the last conjunct records. -/
theorem update_sets_succ_mod_and_sole_mutator (s : EnumStateSpace) (x : PyVal) (i : Nat)
    (hN : 0 < s.enum_labels.length)
    (h : dictLookup s.scalars (pyStr x) = some i) :
    dictLookup ((s.update x).1).scalars (pyStr x) =
        some ((i + 1) % s.enum_labels.length)
      ∧ (s.update x).2 = none
      ∧ s.resolve = (s, none) := by
  refine ⟨?_, ?_, rfl⟩
  · rw [update_found s x i hN h]
    exact dictLookup_assign_self _ _ _
  · rw [update_found s x i hN h]

/-- Witness for C1: on `wS`, element `b` at index 2 moves to `(2 + 1) % 3 = 0`. -/
theorem update_sets_succ_mod_and_sole_mutator_witness :
    dictLookup ((wS.update (PyVal.str "b")).1).scalars "b" = some ((2 + 1) % 3)
      ∧ (wS.update (PyVal.str "b")).2 = none
      ∧ wS.resolve = (wS, none) :=
  update_sets_succ_mod_and_sole_mutator wS (PyVal.str "b") 2 (by decide) (by decide)

/-- C2: constructing the cyclic-enumeration state space with zero enumeration
labels fails: the origin-state lookup `self.enum_states(0)` raises
(`ValueError` — the construction-failure condition the spec names
`InvalidDomainError`), construction returns only that error, and no (partial)
instance is produced. -/
theorem construct_empty_enum_rejected (bs : List PyVal) :
    EnumStateSpace.construct bs [] = .error PyErr.valueError := rfl

/-- C3: `update` with a selector that does not name a basis element of the
instance raises (`KeyError` — the lookup-failure condition the spec names
`UnknownBasisElementError`) and returns the state unchanged: every basis
element's scalar is exactly what it was. -/
theorem update_unknown_selector (s : EnumStateSpace) (x : PyVal)
    (h : dictLookup s.scalars (pyStr x) = none) :
    s.update x = (s, some PyErr.keyError)
      ∧ ∀ b, dictLookup ((s.update x).1).scalars b = dictLookup s.scalars b := by
  refine ⟨update_unknown_eq s x h, fun b => ?_⟩
  rw [update_unknown_eq s x h]

/-- Witness for C3: selector `zz` is not a basis element of `wS`. -/
theorem update_unknown_selector_witness :
    wS.update (PyVal.str "zz") = (wS, some PyErr.keyError) :=
  (update_unknown_selector wS (PyVal.str "zz") (by decide)).1

/-- C4: cycle closure. On an instance with `N` labels, a basis element whose
scalar is currently at (necessarily in-range) index `i`: `N` successive
`update` calls on it return the scalar to `i`, and `N * k` successive calls
(any `k ≥ 0`) leave the scalar equal to applying `update` zero times. -/
theorem cycle_closure (s : EnumStateSpace) (x : PyVal) (i k : Nat)
    (hN : 0 < s.enum_labels.length)
    (h : dictLookup s.scalars (pyStr x) = some i)
    (hi : i < s.enum_labels.length) :
    dictLookup (updateTimes s x s.enum_labels.length).scalars (pyStr x) = some i
      ∧ dictLookup (updateTimes s x (s.enum_labels.length * k)).scalars (pyStr x) =
          dictLookup (updateTimes s x 0).scalars (pyStr x) := by
  constructor
  · rw [updateTimes_lookup x s.enum_labels.length s i hN h hi,
      Nat.add_mod_right, Nat.mod_eq_of_lt hi]
  · rw [updateTimes_lookup x (s.enum_labels.length * k) s i hN h hi,
      Nat.add_mul_mod_self_left, Nat.mod_eq_of_lt hi]
    simp only [updateTimes]
    exact h.symm

/-- Witness for C4 on `wS` (N = 3, element `b` at index 2, k = 2). -/
theorem cycle_closure_witness :
    dictLookup (updateTimes wS (PyVal.str "b") 3).scalars "b" = some 2
      ∧ dictLookup (updateTimes wS (PyVal.str "b") (3 * 2)).scalars "b" =
          dictLookup (updateTimes wS (PyVal.str "b") 0).scalars "b" :=
  cycle_closure wS (PyVal.str "b") 2 2 (by decide) (by decide) (by decide)

/-- C5: isolation. A successful `update` on basis element `x` leaves the
scalar of every other basis element `b` unchanged; the whole scalar mapping
after the call is exactly the old mapping with the single entry for `x`
reassigned (`dictAssign` rewrites one entry in place and keeps every other
entry); and the call raises nothing. -/
theorem update_isolation (s : EnumStateSpace) (x : PyVal) (i : Nat) (b : String)
    (hN : 0 < s.enum_labels.length)
    (h : dictLookup s.scalars (pyStr x) = some i)
    (hb : b ≠ pyStr x) :
    dictLookup ((s.update x).1).scalars b = dictLookup s.scalars b
      ∧ ((s.update x).1).scalars =
          dictAssign s.scalars (pyStr x) ((i + 1) % s.enum_labels.length)
      ∧ (s.update x).2 = none := by
  refine ⟨?_, ?_, ?_⟩ <;> rw [update_found s x i hN h]
  exact dictLookup_assign_ne s.scalars (pyStr x) _ b hb

/-- Witness for C5: updating `a` in `wS` leaves `b` at index 2. -/
theorem update_isolation_witness :
    dictLookup ((wS.update (PyVal.str "a")).1).scalars "b" = dictLookup wS.scalars "b"
      ∧ ((wS.update (PyVal.str "a")).1).scalars = dictAssign wS.scalars "a" ((0 + 1) % 3)
      ∧ (wS.update (PyVal.str "a")).2 = none :=
  update_isolation wS (PyVal.str "a") 0 "b" (by decide) (by decide) (by decide)

/-- C6: initialization. Whenever construction with a non-empty basis-element
list and a non-empty enumeration succeeds, every basis element's scalar is
index 0 (the first label, the origin state), the stored enumeration is the
given one, and `check()` returns true. -/
theorem construct_origin_check (bs : List PyVal) (ls : List String) (s : EnumStateSpace)
    (_hbs : bs ≠ []) (hls : ls ≠ [])
    (h : EnumStateSpace.construct bs ls = .ok s) :
    (∀ p ∈ s.scalars, p.2 = 0) ∧ s.enum_labels = ls ∧ s.check = true := by
  obtain ⟨-, rfl⟩ := (construct_ok_iff bs ls s).mp h
  refine ⟨@mkDict_forall (fun v => v = 0) (bs.map pyStr) 0 rfl, rfl, ?_⟩
  rw [check_eq_true_iff]
  intro p hp
  have h0 : p.2 = 0 := @mkDict_forall (fun v => v = 0) (bs.map pyStr) 0 rfl p hp
  rw [h0]
  simpa using List.length_pos.mpr hls

/-- Witness for C6 at `construct ["a"] ["L0"]`. -/
theorem construct_origin_check_witness :
    wC.enum_labels = ["L0"] ∧ wC.check = true :=
  ⟨(construct_origin_check [PyVal.str "a"] ["L0"] wC (by decide) (by decide) rfl).2.1,
   (construct_origin_check [PyVal.str "a"] ["L0"] wC (by decide) (by decide) rfl).2.2⟩

/-- C7: `check()` returns true iff every basis element's current index lies in
`[0, len(enum_labels))` (indices are naturals, so the lower bound `0 ≤ ·` is
automatic). In this embedding `check` is a pure total function from the state
to `Bool`: it can neither mutate any state nor raise. -/
theorem check_true_iff_all_indices_in_range (s : EnumStateSpace) :
    s.check = true ↔ ∀ p ∈ s.scalars, p.2 < s.enum_labels.length :=
  check_eq_true_iff s

/-- C8: invariant stability. Starting from any successfully constructed
instance (hence `N ≥ 1` labels), `check()` returns true before and after any
finite sequence of valid (non-raising) `update` calls. -/
theorem check_stable_under_updates (bs : List PyVal) (ls : List String)
    (s0 : EnumStateSpace) (xs : List PyVal)
    (h : EnumStateSpace.construct bs ls = .ok s0)
    (hv : updatesSucceed s0 xs = true) :
    s0.check = true ∧ (applyUpdates s0 xs).check = true := by
  obtain ⟨hls, rfl⟩ := (construct_ok_iff bs ls s0).mp h
  have hN : 0 < ls.length := List.length_pos.mpr hls
  have hbase : ∀ p ∈ mkDict (bs.map pyStr) 0, p.2 < ls.length := by
    intro p hp
    have h0 : p.2 = 0 := @mkDict_forall (fun v => v = 0) (bs.map pyStr) 0 rfl p hp
    omega
  constructor
  · rw [check_eq_true_iff]
    exact hbase
  · rw [check_eq_true_iff]
    exact applyUpdates_forall_lt xs _ hbase

/-- Witness for C8: two updates on the one-element, one-label instance. -/
theorem check_stable_under_updates_witness :
    wC.check = true ∧ (applyUpdates wC [PyVal.str "a", PyVal.str "a"]).check = true :=
  check_stable_under_updates [PyVal.str "a"] ["L0"] wC [PyVal.str "a", PyVal.str "a"]
    rfl (by decide)

/-- C9: the end-to-end scenario of the script. Construction of `bar` with
basis elements `e1 e2 e3` and enumeration `state0 state1 state2` succeeds;
the script's six updates all succeed; afterwards the display string is
`"state0<e1> + state1<e2> + state2<e3>"` (labels in construction order joined
by `" + "`), `check()` returns true, `resolve()` returns the no-op sentinel
`none` leaving the state unchanged, and the scalars sit at indices 0, 1, 2. -/
theorem end_to_end_scenario :
    barE = Except.ok barInit
      ∧ updatesSucceed barInit barScript = true
      ∧ barFinal.display = "state0<e1> + state1<e2> + state2<e3>"
      ∧ barFinal.check = true
      ∧ barFinal.resolve = (barFinal, none)
      ∧ barFinal.scalars = [("e1", 0), ("e2", 1), ("e3", 2)] :=
  ⟨rfl, rfl, rfl, rfl, rfl, rfl⟩

/-- C10: `update` stringifies its selector before the lookup (`basis_elem =
str(basis_element)`), so on any state reached from a constructed instance by
any update sequence, `update x` behaves exactly like `update (str x)`, it
succeeds precisely when `str x` is one of the stored (stringified)
basis-element names, and in particular the selectors `3 : int` and
`"3" : str` target the same scalar. -/
theorem update_stringifies_selector (bs : List PyVal) (ls : List String)
    (s0 : EnumStateSpace) (xs : List PyVal) (s : EnumStateSpace) (x : PyVal)
    (h : EnumStateSpace.construct bs ls = .ok s0)
    (hs : s = applyUpdates s0 xs) :
    s.update x = s.update (PyVal.str (pyStr x))
      ∧ ((s.update x).2 = none ↔ pyStr x ∈ s.basis_elements)
      ∧ s.update (PyVal.int 3) = s.update (PyVal.str "3") := by
  obtain ⟨hls, rfl⟩ := (construct_ok_iff bs ls s0).mp h
  refine ⟨update_congr_pyStr s x (PyVal.str (pyStr x)) rfl, ?_,
    update_congr_pyStr s (PyVal.int 3) (PyVal.str "3") (by decide)⟩
  have hN : 0 < s.enum_labels.length := by
    rw [hs, applyUpdates_enum_labels]
    exact List.length_pos.mpr hls
  rw [update_snd_none_iff s x hN, dictLookup_isSome_iff]
  have hkeys : s.scalars.map Prod.fst = (mkDict (bs.map pyStr) 0).map Prod.fst := by
    rw [hs, applyUpdates_keys]
  have hbe : s.basis_elements = bs.map pyStr := by
    rw [hs, applyUpdates_basis_elements]
  rw [hkeys, hbe, ← dictLookup_isSome_iff, mkDict_lookup_isSome]

/-- Witness for C10: the instance built with the integer basis element `3`
accepts the integer selector `3` — stored name `"3"`. -/
theorem update_stringifies_selector_witness :
    wD.update (PyVal.int 3) = wD.update (PyVal.str (pyStr (PyVal.int 3)))
      ∧ ((wD.update (PyVal.int 3)).2 = none ↔ pyStr (PyVal.int 3) ∈ wD.basis_elements)
      ∧ wD.update (PyVal.int 3) = wD.update (PyVal.str "3") :=
  update_stringifies_selector [PyVal.int 3] ["L0", "L1"] wD [] wD (PyVal.int 3) rfl rfl

end StateSpacePy
